import Mathlib

/-!
Shallow embedding of `paster` (src/main.rs): a clipboard-to-directory paste
utility plus a date subcommand. Paths are modelled as Unix-style strings,
the filesystem and clock as explicit parameters, and stdout as a list of
printed lines. Rust `u32` arithmetic is modelled with release-mode wrapping
semantics (`% 2 ^ 32`); `usize` is modelled as `Nat` (64-bit platform, so a
`u32`-to-`usize` cast is lossless).
-/

namespace Paster

/-! ### Path model (Rust `std::path::Path` on Unix, valid UTF-8) -/

/-- Split a character list on a separator character (structural version of
string splitting, so that concrete instances reduce in the kernel). -/
def splitOnChar (sep : Char) : List Char → List (List Char)
  | [] => [[]]
  | c :: cs =>
    let r := splitOnChar sep cs
    if c = sep then [] :: r
    else
      match r with
      | [] => [[c]]
      | g :: gs => (c :: g) :: gs

/-- Path components: split on the separator, dropping empty and `.`
components, matching `Path::components` normalisation on Unix. -/
def pathComponents (p : String) : List String :=
  ((splitOnChar '/' p.toList).map String.mk).filter (fun c => c != "" && c != ".")

/-- `Path::file_name`: the last component, unless it is `..` or the path has
no components. -/
def file_name (p : String) : Option String :=
  match (pathComponents p).getLast? with
  | none => none
  | some c => if c = ".." then none else some c

/-- Split a file name at its last `.` that is not at position 0: returns the
stem and the optional extension, following the documented semantics of
`Path::file_stem` / `Path::extension`. -/
def stemExt (n : String) : String × Option String :=
  let cs := n.toList
  let dotIdxs := (List.range cs.length).filter (fun i => cs.getD i ' ' == '.')
  match dotIdxs.getLast? with
  | none => (n, none)
  | some 0 => (n, none)
  | some i => (String.mk (cs.take i), some (String.mk (cs.drop (i + 1))))

/-- `Path::file_stem`. -/
def file_stem (p : String) : Option String :=
  (file_name p).map (fun n => (stemExt n).1)

/-- `Path::extension`. -/
def extension (p : String) : Option String :=
  (file_name p).bind (fun n => (stemExt n).2)

/-- `PathBuf::join` of a directory and a relative file name: a separator is
inserted unless the directory is empty or already ends with one. -/
def joinPath (d n : String) : String :=
  if d = "" then n
  else if d.toList.getLast? = some '/' then d ++ n
  else d ++ "/" ++ n

/-- `str::trim` (structural version: drop whitespace from both ends). -/
def rustTrim (s : String) : String :=
  String.mk
    (((s.toList.dropWhile Char.isWhitespace).reverse.dropWhile
      Char.isWhitespace).reverse)

/-! ### Error taxonomy

The source uses `anyhow` context strings; the spec names them. Constructors
map to the source's failure sites: "Could not determine filename",
"Could not determine extension", "can't copy file",
"Error: Invalid image data length",
"Error: Could not create image from raw data", and a propagated
`ctx.get_text()` error. -/

inductive PError where
  | missingFilename
  | missingExtension
  | copyFailed
  | invalidImageBuffer
  | imageDecodeFailed
  | textQueryFailed
deriving DecidableEq, Repr

/-! ### File materializer (`handle_file_list`) -/

/-- `is_image_file` from the source: the lowercase extension matches one of
the seven image extensions (the source's `matches!` is equality with one of
the listed literals). -/
def is_image_file (p : String) : Bool :=
  match extension p with
  | none => false
  | some e =>
    let ext_lower := e.toLower
    ["jpg", "jpeg", "png", "gif", "bmp", "tiff", "webp"].contains ext_lower

/-- Observable outcome of a handler run: destination paths written (in
order), stdout lines (in order), number of `create_dir_all` calls, and the
error that aborted the run (`none` = success). -/
structure FLResult where
  written : List String
  output : List String
  dirCreates : Nat
  err : Option PError
deriving DecidableEq, Repr

/-- `handle_file_list` from the source. `ts` is the clock: the timestamp
string returned by the `k`-th call to `timestamp()`; `copyOk` tells whether
`std::fs::copy` succeeds for a given source path; `i` is the index of the
next clock call. Per file: compute the `!` marker, the stem (spaces replaced
by underscores, failing with `missingFilename` when absent), the extension
(failing with `missingExtension` when absent), build
`<stem>_<timestamp>.<ext>`, create the destination directory, copy (failing
with `copyFailed`), then print `emark[stem](dest_path)`. -/
def handle_file_list (files : List String) (dest_dir : String)
    (ts : Nat → String) (copyOk : String → Bool) (i : Nat) : FLResult :=
  match files with
  | [] => ⟨[], [], 0, none⟩
  | file :: rest =>
    let emark := if is_image_file file then "!" else ""
    match file_stem file with
    | none => ⟨[], [], 0, some .missingFilename⟩
    | some stem =>
      let filename := stem.replace " " "_"
      match extension file with
      | none => ⟨[], [], 0, some .missingExtension⟩
      | some ext =>
        let new_filename := filename ++ "_" ++ ts i ++ "." ++ ext
        let dest_path := joinPath dest_dir new_filename
        if copyOk file then
          let line := emark ++ "[" ++ filename ++ "](" ++ dest_path ++ ")"
          let r := handle_file_list rest dest_dir ts copyOk (i + 1)
          ⟨dest_path :: r.written, line :: r.output, r.dirCreates + 1, r.err⟩
        else
          ⟨[], [], 1, some .copyFailed⟩

/-! ### Image materializer (`handle_image_data`) -/

/-- `arboard::ImageData`: `width` and `height` are `usize`, `bytes` the raw
RGBA buffer (modelled by its byte values). -/
structure ImageData where
  width : Nat
  height : Nat
  bytes : List Nat
deriving DecidableEq, Repr

/-- Models `image::RgbaImage::from_raw width height buf`: the image crate
returns `some` exactly when the buffer is big enough for the requested
dimensions (`width * height * 4 ≤ buf.length`, computed with checked
arithmetic that cannot overflow `Nat`). -/
def rgba_from_raw (width height : Nat) (bytes : List Nat) :
    Option (Nat × Nat × List Nat) :=
  if width * height * 4 ≤ bytes.length then some (width, height, bytes)
  else none

/-- `handle_image_data` from the source. The `usize` dimensions are cast to
`u32` (truncation mod `2 ^ 32`); the length check compares
`bytes.len()` with `(width * height * 4) as usize` where the product is
computed in `u32` (wrapping, release semantics); then
`RgbaImage::from_raw`; then PNG encode and write (modelled as succeeding on
any valid `RgbaImage`) to `img_<timestamp>.png`, printing `![](dest_path)`.
`ts` is the value of the single `timestamp()` call. -/
def handle_image_data (d : ImageData) (dest_dir : String) (ts : String) :
    FLResult :=
  let width := d.width % 2 ^ 32
  let height := d.height % 2 ^ 32
  if d.bytes.length ≠ (width * height * 4) % 2 ^ 32 then
    ⟨[], [], 0, some .invalidImageBuffer⟩
  else
    match rgba_from_raw width height d.bytes with
    | none => ⟨[], [], 0, some .imageDecodeFailed⟩
    | some _ =>
      let new_filename := "img_" ++ ts ++ ".png"
      let dest_path := joinPath dest_dir new_filename
      ⟨[dest_path], ["![](" ++ dest_path ++ ")"], 1, none⟩

/-! ### Text emitter and dispatcher (`handle_text`, `paste`) -/

/-- `handle_text` from the source: the stdout lines it prints. -/
def handle_text (content : String) : List String :=
  ["```", content, "```"]

/-- A point-in-time clipboard snapshot: each field is the result of the
corresponding fallible query (`none` = the query fails). -/
structure Clip where
  file_list : Option (List String)
  image : Option ImageData
  text : Option String

/-- The three clipboard content queries, in source order. -/
inductive Query where
  | fileList
  | image
  | text
deriving DecidableEq, Repr

/-- Observable outcome of `paste`: which queries were attempted (in order),
which handlers ran (in order), plus the combined handler trace.
`err = none` models exit code 0. -/
structure PasteResult where
  queried : List Query
  handlers : List Query
  written : List String
  output : List String
  dirCreates : Nat
  err : Option PError
deriving DecidableEq, Repr

/-- `paste` from the source (the optional working-directory change and
`Clipboard::new` are outside the dispatch and not modelled). Try
`ctx.get().file_list()`; on success run `handle_file_list` and return. Else
try `ctx.get_image()`; on success run `handle_image_data` and return. Else
`ctx.get_text()?` — a failing text query propagates its error. If the text
trims to empty, return `Ok(())` with no output; otherwise run
`handle_text`. -/
def paste (clip : Clip) (dest_dir : String) (ts : Nat → String)
    (copyOk : String → Bool) : PasteResult :=
  match clip.file_list with
  | some fl =>
    let r := handle_file_list fl dest_dir ts copyOk 0
    ⟨[.fileList], [.fileList], r.written, r.output, r.dirCreates, r.err⟩
  | none =>
    match clip.image with
    | some img =>
      let r := handle_image_data img dest_dir (ts 0)
      ⟨[.fileList, .image], [.image], r.written, r.output, r.dirCreates, r.err⟩
    | none =>
      match clip.text with
      | none => ⟨[.fileList, .image, .text], [], [], [], 0, some .textQueryFailed⟩
      | some content =>
        if rustTrim content = "" then
          ⟨[.fileList, .image, .text], [], [], [], 0, none⟩
        else
          ⟨[.fileList, .image, .text], [.text], [], handle_text content, 0, none⟩

/-! ### Date subcommand (`next-week` branch) -/

/-- `chrono::Weekday::num_days_from_monday` for a `NaiveDate` given as its
day number from the common era (`0001-01-01` is day 1, a Monday in the
proleptic Gregorian calendar). -/
def num_days_from_monday (d : Nat) : Nat := (d + 6) % 7

/-- The `NextWeek` branch of `date`: `today + Duration::days (7 -
days_since_monday)` (the `i64` subtraction cannot underflow since
`days_since_monday ≤ 6`, so `Nat` arithmetic is exact). -/
def date_next_week (today : Nat) : Nat :=
  today + (7 - num_days_from_monday today)

/-! ### Spec-side helper definitions (expected outputs, written from the
spec's words, to compare against the source embedding) -/

/-- The destination path §4.3 prescribes for file `f` stamped `tsv`:
`dest/<stem-with-underscores>_<tsv>.<ext>`. -/
def spec_dest_path (dest tsv f : String) : String :=
  joinPath dest
    (((file_stem f).getD "").replace " " "_" ++ "_" ++ tsv ++ "." ++
      (extension f).getD "")

/-- The stdout line §4.3 prescribes for file `f` stamped `tsv`:
`![stem](dest_path)` for image extensions, `[stem](dest_path)` otherwise. -/
def spec_line (dest tsv f : String) : String :=
  (if is_image_file f then "!" else "") ++ "[" ++
    ((file_stem f).getD "").replace " " "_" ++ "](" ++
    spec_dest_path dest tsv f ++ ")"

/-- Expected artifact paths for a file list processed from clock index `i`. -/
def spec_paths (dest : String) (ts : Nat → String) (i : Nat) :
    List String → List String
  | [] => []
  | f :: rest => spec_dest_path dest (ts i) f :: spec_paths dest ts (i + 1) rest

/-- Expected stdout lines for a file list processed from clock index `i`. -/
def spec_lines (dest : String) (ts : Nat → String) (i : Nat) :
    List String → List String
  | [] => []
  | f :: rest => spec_line dest (ts i) f :: spec_lines dest ts (i + 1) rest

/-! ### Shared lemmas -/

/-- One expected line per input file. -/
theorem spec_lines_length (dest : String) (ts : Nat → String) :
    ∀ (files : List String) (i : Nat),
      (spec_lines dest ts i files).length = files.length
  | [], _ => rfl
  | _ :: rest, i => by
    simp [spec_lines, spec_lines_length dest ts rest (i + 1)]

/-- An extension is an image extension exactly when its lowercase form is in
the seven-element set. -/
theorem is_image_ext_iff (f e : String) (he : extension f = some e) :
    is_image_file f = true ↔
      e.toLower ∈ ["jpg", "jpeg", "png", "gif", "bmp", "tiff", "webp"] := by
  simp [is_image_file, he]

/-- Case characterization of the image materializer: the wrapped length
check decides InvalidImageBuffer, then the buffer-size check of
`RgbaImage::from_raw` decides between success and ImageDecodeFailed. -/
theorem handle_image_data_eq (d : ImageData) (dest ts : String) :
    handle_image_data d dest ts =
      if d.bytes.length ≠
          ((d.width % 2 ^ 32) * (d.height % 2 ^ 32) * 4) % 2 ^ 32 then
        ⟨[], [], 0, some .invalidImageBuffer⟩
      else if (d.width % 2 ^ 32) * (d.height % 2 ^ 32) * 4 ≤
          d.bytes.length then
        ⟨[joinPath dest ("img_" ++ ts ++ ".png")],
          ["![](" ++ joinPath dest ("img_" ++ ts ++ ".png") ++ ")"], 1,
          none⟩
      else ⟨[], [], 0, some .imageDecodeFailed⟩ := by
  simp only [handle_image_data, rgba_from_raw]
  by_cases h1 : d.bytes.length =
      ((d.width % 2 ^ 32) * (d.height % 2 ^ 32) * 4) % 2 ^ 32
  · have hne : ¬(d.bytes.length ≠
        ((d.width % 2 ^ 32) * (d.height % 2 ^ 32) * 4) % 2 ^ 32) :=
      fun hn => hn h1
    rw [if_neg hne, if_neg hne]
    by_cases h2 : (d.width % 2 ^ 32) * (d.height % 2 ^ 32) * 4 ≤
        d.bytes.length
    · rw [if_pos h2, if_pos h2]
    · rw [if_neg h2, if_neg h2]
  · rw [if_pos h1, if_pos h1]

/-- A fully valid file list (stem and extension present, every copy
succeeding) is materialized completely: one artifact and one line per file,
in order, one directory creation per file, no error. -/
theorem handle_file_list_ok (files : List String) (dest : String)
    (ts : Nat → String) (copyOk : String → Bool) (i : Nat)
    (hok : ∀ f ∈ files, (file_stem f).isSome = true ∧
      (extension f).isSome = true ∧ copyOk f = true) :
    handle_file_list files dest ts copyOk i =
      ⟨spec_paths dest ts i files, spec_lines dest ts i files,
        files.length, none⟩ := by
  induction files generalizing i with
  | nil => simp [handle_file_list, spec_paths, spec_lines]
  | cons f rest ih =>
    obtain ⟨hs, he, hc⟩ := hok f (List.mem_cons_self f rest)
    obtain ⟨s, hs⟩ := Option.isSome_iff_exists.mp hs
    obtain ⟨e, he⟩ := Option.isSome_iff_exists.mp he
    have ihr := ih (i + 1) (fun g hg => hok g (List.mem_cons_of_mem f hg))
    simp [handle_file_list, hs, he, hc, ihr, spec_paths, spec_lines,
      spec_line, spec_dest_path]

/-! ### Claims -/

/-- Claim C9: for the empty file list the materializer succeeds, writes no
file, prints nothing, and never calls `create_dir_all` (directory creation
happens only inside the per-file loop). -/
theorem C9_empty_file_list (dest : String) (ts : Nat → String)
    (copyOk : String → Bool) (i : Nat) :
    handle_file_list [] dest ts copyOk i = ⟨[], [], 0, none⟩ := rfl

/-- Claim C8: the next-week computation outputs today plus
`7 - days_since_monday` days; on a Monday that is today + 7, on a Wednesday
today + 5; moreover the result is always a Monday strictly after today and
at most a week away. -/
theorem C8_next_week (d : Nat) :
    date_next_week d = d + (7 - num_days_from_monday d) ∧
    (num_days_from_monday d = 0 → date_next_week d = d + 7) ∧
    (num_days_from_monday d = 2 → date_next_week d = d + 5) ∧
    num_days_from_monday (date_next_week d) = 0 ∧
    d < date_next_week d ∧ date_next_week d ≤ d + 7 := by
  unfold date_next_week num_days_from_monday
  omega

/-- Claim C8 witness: day 1 (0001-01-01) is a Monday and maps to day 8; day
3 is a Wednesday and maps to day 8 as well. -/
theorem C8_next_week_witness :
    date_next_week 1 = 1 + 7 ∧ date_next_week 3 = 3 + 5 :=
  ⟨(C8_next_week 1).2.1 (by decide), (C8_next_week 3).2.2.1 (by decide)⟩

/-- Claim C10: the buffer-length validation accepts exactly the byte lengths
equal to `((width mod 2^32) * (height mod 2^32) * 4) mod 2^32`, and for all
dimensions whose true product `width*height*4` is at least `2^32` that
modular value differs from the exact product. -/
theorem C10_modular_length_check (d : ImageData) (dest ts : String) :
    ((handle_image_data d dest ts).err = some PError.invalidImageBuffer ↔
      d.bytes.length ≠
        ((d.width % 2 ^ 32) * (d.height % 2 ^ 32) * 4) % 2 ^ 32) ∧
    (2 ^ 32 ≤ d.width * d.height * 4 →
      ((d.width % 2 ^ 32) * (d.height % 2 ^ 32) * 4) % 2 ^ 32 ≠
        d.width * d.height * 4) := by
  constructor
  · rw [handle_image_data_eq]
    by_cases hc : d.bytes.length =
        ((d.width % 2 ^ 32) * (d.height % 2 ^ 32) * 4) % 2 ^ 32
    · have hne : ¬(d.bytes.length ≠
          ((d.width % 2 ^ 32) * (d.height % 2 ^ 32) * 4) % 2 ^ 32) :=
        fun hn => hn hc
      rw [if_neg hne]
      constructor
      · intro h
        exfalso
        by_cases h2 : (d.width % 2 ^ 32) * (d.height % 2 ^ 32) * 4 ≤
            d.bytes.length
        · rw [if_pos h2] at h
          exact Option.noConfusion h
        · rw [if_neg h2] at h
          exact PError.noConfusion (Option.some.inj h)
      · intro h
        exact absurd hc h
    · rw [if_pos hc]
      exact ⟨fun _ => hc, fun _ => rfl⟩
  · intro h heq
    have hlt : ((d.width % 2 ^ 32) * (d.height % 2 ^ 32) * 4) % 2 ^ 32 <
        2 ^ 32 := Nat.mod_lt _ (by norm_num)
    omega

/-- Claim C10 witness: for 2^16 × 2^16 the true product 2^34 exceeds 2^32
and the modular value (0) differs from it. -/
theorem C10_modular_length_check_witness :
    ((2 ^ 16 % 2 ^ 32) * (2 ^ 16 % 2 ^ 32) * 4) % 2 ^ 32 ≠
      2 ^ 16 * 2 ^ 16 * 4 :=
  (C10_modular_length_check ⟨2 ^ 16, 2 ^ 16, []⟩ "d" "T").2 (by norm_num)

/-- Claim C3 counterexample: width `2^32 + 1`, height 1, four bytes. The
byte length differs from `width*height*4`, yet instead of failing with
InvalidImageBuffer and writing no file, the materializer succeeds (the
width truncates to 1 in the u32 cast) and writes a file. -/
theorem C3_counterexample :
    (ImageData.mk (2 ^ 32 + 1) 1 [0, 0, 0, 0]).bytes.length ≠
      (2 ^ 32 + 1) * 1 * 4 ∧
    (handle_image_data ⟨2 ^ 32 + 1, 1, [0, 0, 0, 0]⟩ "dest" "TS").err =
      none ∧
    (handle_image_data ⟨2 ^ 32 + 1, 1, [0, 0, 0, 0]⟩ "dest" "TS").written =
      ["dest/img_TS.png"] := by
  refine ⟨by decide, ?_, ?_⟩ <;> rfl

/-- Claim C3 (amended): with truncated dimensions `w = width mod 2^32`,
`h = height mod 2^32`: if the byte length differs from `(w*h*4) mod 2^32`
the materializer fails with InvalidImageBuffer and writes no file; if the
byte length equals the exact product `w*h*4` and that product is below
`2^32` it succeeds, writes exactly one file `img_<ts>.png` into the
destination directory and prints `![](dest_path)`; if the byte length
equals the modular product but the exact product is at least `2^32` it
fails at decode (ImageDecodeFailed) and writes no file. -/
theorem C3_image_materializer (d : ImageData) (dest ts : String) :
    (d.bytes.length ≠
        ((d.width % 2 ^ 32) * (d.height % 2 ^ 32) * 4) % 2 ^ 32 →
      handle_image_data d dest ts = ⟨[], [], 0, some .invalidImageBuffer⟩) ∧
    (d.bytes.length = (d.width % 2 ^ 32) * (d.height % 2 ^ 32) * 4 ∧
        (d.width % 2 ^ 32) * (d.height % 2 ^ 32) * 4 < 2 ^ 32 →
      handle_image_data d dest ts =
        ⟨[joinPath dest ("img_" ++ ts ++ ".png")],
          ["![](" ++ joinPath dest ("img_" ++ ts ++ ".png") ++ ")"], 1,
          none⟩) ∧
    (d.bytes.length =
        ((d.width % 2 ^ 32) * (d.height % 2 ^ 32) * 4) % 2 ^ 32 ∧
        2 ^ 32 ≤ (d.width % 2 ^ 32) * (d.height % 2 ^ 32) * 4 →
      handle_image_data d dest ts = ⟨[], [], 0, some .imageDecodeFailed⟩) := by
  refine ⟨fun h => ?_, fun ⟨h1, h2⟩ => ?_, fun ⟨h1, h2⟩ => ?_⟩
  · rw [handle_image_data_eq, if_pos h]
  · have hm : ((d.width % 2 ^ 32) * (d.height % 2 ^ 32) * 4) % 2 ^ 32 =
        (d.width % 2 ^ 32) * (d.height % 2 ^ 32) * 4 := Nat.mod_eq_of_lt h2
    have hne : ¬(d.bytes.length ≠
        ((d.width % 2 ^ 32) * (d.height % 2 ^ 32) * 4) % 2 ^ 32) :=
      fun hn => hn (by rw [hm]; exact h1)
    rw [handle_image_data_eq, if_neg hne, if_pos (le_of_eq h1.symm)]
  · have hlt : d.bytes.length < 2 ^ 32 := by
      rw [h1]; exact Nat.mod_lt _ (by norm_num)
    have hn : ¬((d.width % 2 ^ 32) * (d.height % 2 ^ 32) * 4 ≤
        d.bytes.length) := by omega
    have hne : ¬(d.bytes.length ≠
        ((d.width % 2 ^ 32) * (d.height % 2 ^ 32) * 4) % 2 ^ 32) :=
      fun hx => hx h1
    rw [handle_image_data_eq, if_neg hne, if_neg hn]

/-- Claim C3 witness: a 2 × 2 image with 16 bytes materializes to one PNG
with the expected path and output line. -/
theorem C3_image_materializer_witness :
    handle_image_data ⟨2, 2, List.replicate 16 0⟩ "dest" "TS" =
      ⟨[joinPath "dest" ("img_" ++ "TS" ++ ".png")],
        ["![](" ++ joinPath "dest" ("img_" ++ "TS" ++ ".png") ++ ")"], 1,
        none⟩ :=
  (C3_image_materializer ⟨2, 2, List.replicate 16 0⟩ "dest" "TS").2.1
    ⟨by decide, by decide⟩

/-- Claim C4: per path, the materializer fails with MissingFilename when
the stem is absent, fails with MissingExtension when the extension is
absent, and otherwise builds the destination name
`<stem-with-spaces-replaced-by-underscores>_<timestamp>.<ext>`. -/
theorem C4_stem_and_extension (file : String) (rest : List String)
    (dest : String) (ts : Nat → String) (copyOk : String → Bool) (i : Nat) :
    (file_stem file = none →
      handle_file_list (file :: rest) dest ts copyOk i =
        ⟨[], [], 0, some .missingFilename⟩) ∧
    (∀ s, file_stem file = some s → extension file = none →
      handle_file_list (file :: rest) dest ts copyOk i =
        ⟨[], [], 0, some .missingExtension⟩) ∧
    (∀ s e, file_stem file = some s → extension file = some e →
      copyOk file = true →
      (handle_file_list (file :: rest) dest ts copyOk i).written.head? =
        some (joinPath dest
          (s.replace " " "_" ++ "_" ++ ts i ++ "." ++ e))) := by
  refine ⟨fun h => ?_, fun s hs he => ?_, fun s e hs he hc => ?_⟩
  · simp [handle_file_list, h]
  · simp [handle_file_list, hs, he]
  · simp [handle_file_list, hs, he, hc]

/-- Claim C4 witness: `"a b.txt"` has stem `"a b"` and extension `"txt"`,
and the destination name replaces the space by an underscore. -/
theorem C4_stem_and_extension_witness :
    (handle_file_list ["a b.txt"] "d" (fun _ => "T")
      (fun _ => true) 0).written.head? =
      some (joinPath "d" ("a b".replace " " "_" ++ "_" ++ "T" ++ "." ++
        "txt")) :=
  (C4_stem_and_extension "a b.txt" [] "d" (fun _ => "T") (fun _ => true)
    0).2.2 "a b" "txt" (by decide) (by decide) rfl

/-- Claim C5: when every entry has a stem and an extension and every copy
succeeds, the materializer succeeds and emits exactly one stdout line per
input file, in input order, of the form `![stem](dest_path)` for image
extensions and `[stem](dest_path)` otherwise; the artifacts written are the
same either way (the image test only selects the prefix marker), and an
extension counts as an image extension exactly when its lowercase form is
one of jpg, jpeg, png, gif, bmp, tiff, webp. -/
theorem C5_output_lines (files : List String) (dest : String)
    (ts : Nat → String) (copyOk : String → Bool) (i : Nat)
    (hok : ∀ f ∈ files, (file_stem f).isSome = true ∧
      (extension f).isSome = true ∧ copyOk f = true) :
    (handle_file_list files dest ts copyOk i).err = none ∧
    (handle_file_list files dest ts copyOk i).output =
      spec_lines dest ts i files ∧
    (handle_file_list files dest ts copyOk i).output.length =
      files.length ∧
    (handle_file_list files dest ts copyOk i).written =
      spec_paths dest ts i files ∧
    (∀ f e, extension f = some e →
      (is_image_file f = true ↔
        e.toLower ∈ ["jpg", "jpeg", "png", "gif", "bmp", "tiff", "webp"])) := by
  have h := handle_file_list_ok files dest ts copyOk i hok
  exact ⟨by rw [h], by rw [h], by rw [h]; exact spec_lines_length dest ts files i,
    by rw [h], fun f e he => is_image_ext_iff f e he⟩

/-- Claim C5 witness: two valid files produce exactly the two expected
lines in order. -/
theorem C5_output_lines_witness :
    (handle_file_list ["a.txt", "b.png"] "d" (fun _ => "T")
      (fun _ => true) 0).output =
      spec_lines "d" (fun _ => "T") 0 ["a.txt", "b.png"] :=
  (C5_output_lines ["a.txt", "b.png"] "d" (fun _ => "T") (fun _ => true) 0
    (by decide)).2.1

/-- Claim C6: if the entry at position N fails (missing stem, missing
extension, or failed copy) while all earlier entries are valid and copied,
the run errors, exactly the artifacts and lines of the earlier entries are
produced (and remain), and the entries after N are never attempted: the
result does not depend on them at all. -/
theorem C6_first_error_aborts (pre : List String) (f : String)
    (post : List String) (dest : String) (ts : Nat → String)
    (copyOk : String → Bool) (i : Nat)
    (hpre : ∀ g ∈ pre, (file_stem g).isSome = true ∧
      (extension g).isSome = true ∧ copyOk g = true)
    (hf : file_stem f = none ∨ extension f = none ∨ copyOk f = false) :
    (handle_file_list (pre ++ f :: post) dest ts copyOk i).err.isSome =
      true ∧
    (handle_file_list (pre ++ f :: post) dest ts copyOk i).written =
      spec_paths dest ts i pre ∧
    (handle_file_list (pre ++ f :: post) dest ts copyOk i).output =
      spec_lines dest ts i pre ∧
    (∀ post2, handle_file_list (pre ++ f :: post) dest ts copyOk i =
      handle_file_list (pre ++ f :: post2) dest ts copyOk i) := by
  induction pre generalizing i with
  | nil =>
    simp only [List.nil_append]
    rcases hstem : file_stem f with _ | s
    · simp [handle_file_list, hstem, spec_paths, spec_lines]
    · rcases hext : extension f with _ | e
      · simp [handle_file_list, hstem, hext, spec_paths, spec_lines]
      · have hcf : copyOk f = false := by
          rcases hf with h | h | h
          · rw [hstem] at h; exact Option.noConfusion h
          · rw [hext] at h; exact Option.noConfusion h
          · exact h
        simp [handle_file_list, hstem, hext, hcf, spec_paths, spec_lines]
  | cons g pre ih =>
    obtain ⟨hs, he, hc⟩ := hpre g (List.mem_cons_self g pre)
    obtain ⟨s, hs⟩ := Option.isSome_iff_exists.mp hs
    obtain ⟨e, he⟩ := Option.isSome_iff_exists.mp he
    have ihr := ih (i + 1) (fun x hx => hpre x (List.mem_cons_of_mem g hx))
    refine ⟨?_, ?_, ?_, fun post2 => ?_⟩
    · simpa [handle_file_list, hs, he, hc] using ihr.1
    · simp [handle_file_list, hs, he, hc, spec_paths, spec_dest_path,
        ihr.2.1]
    · simp [handle_file_list, hs, he, hc, spec_lines, spec_line,
        spec_dest_path, ihr.2.2.1]
    · simp [handle_file_list, hs, he, hc, ihr.2.2.2 post2]

/-- Claim C6 witness: with a valid first entry and a second entry lacking
an extension, the run errors after materializing exactly the first
entry, independently of the third entry. -/
theorem C6_first_error_aborts_witness :
    (handle_file_list (["a.txt"] ++ "noext" :: ["c.txt"]) "d"
      (fun _ => "T") (fun _ => true) 0).err.isSome = true :=
  (C6_first_error_aborts ["a.txt"] "noext" ["c.txt"] "d" (fun _ => "T")
    (fun _ => true) 0 (by decide) (Or.inr (Or.inl (by decide)))).1

/-- Claim C1: queries are attempted in the fixed order file list, image,
text; at most one handler runs; a successful file-list query runs exactly
the file-list handler without attempting the other queries (the result is
exactly the handler's outcome, so handler success means overall success);
likewise for image when the file-list query fails; both earlier queries
must fail for text to be attempted; and a successful text query with
non-whitespace content runs exactly the text handler and succeeds. -/
theorem C1_dispatch_priority (clip : Clip) (dest : String)
    (ts : Nat → String) (copyOk : String → Bool) :
    (paste clip dest ts copyOk).handlers.length ≤ 1 ∧
    (∀ fl, clip.file_list = some fl →
      paste clip dest ts copyOk =
        ⟨[Query.fileList], [Query.fileList],
          (handle_file_list fl dest ts copyOk 0).written,
          (handle_file_list fl dest ts copyOk 0).output,
          (handle_file_list fl dest ts copyOk 0).dirCreates,
          (handle_file_list fl dest ts copyOk 0).err⟩) ∧
    (∀ img, clip.file_list = none → clip.image = some img →
      paste clip dest ts copyOk =
        ⟨[Query.fileList, Query.image], [Query.image],
          (handle_image_data img dest (ts 0)).written,
          (handle_image_data img dest (ts 0)).output,
          (handle_image_data img dest (ts 0)).dirCreates,
          (handle_image_data img dest (ts 0)).err⟩) ∧
    (clip.file_list = none → clip.image = none →
      (paste clip dest ts copyOk).queried =
        [Query.fileList, Query.image, Query.text]) ∧
    (∀ s, clip.file_list = none → clip.image = none → clip.text = some s →
      rustTrim s ≠ "" →
      paste clip dest ts copyOk =
        ⟨[Query.fileList, Query.image, Query.text], [Query.text], [],
          handle_text s, 0, none⟩) := by
  obtain ⟨fl, img, txt⟩ := clip
  refine ⟨?_, ?_, ?_, ?_, ?_⟩
  · cases fl with
    | some v => exact Nat.le_refl 1
    | none => cases img with
      | some v => exact Nat.le_refl 1
      | none => cases txt with
        | none => exact Nat.zero_le 1
        | some t =>
          by_cases ht : rustTrim t = "" <;> simp [paste, ht]
  · intro fl2 hfl
    cases fl with
    | none => exact Option.noConfusion hfl
    | some v =>
      obtain rfl : v = fl2 := Option.some.inj hfl
      rfl
  · intro img2 hfl himg
    cases fl with
    | some v => exact Option.noConfusion hfl
    | none => cases img with
      | none => exact Option.noConfusion himg
      | some v =>
        obtain rfl : v = img2 := Option.some.inj himg
        rfl
  · intro hfl himg
    cases fl with
    | some v => exact Option.noConfusion hfl
    | none => cases img with
      | some v => exact Option.noConfusion himg
      | none => cases txt with
        | none => rfl
        | some t => by_cases ht : rustTrim t = "" <;> simp [paste, ht]
  · intro s hfl himg htxt hs
    cases fl with
    | some v => exact Option.noConfusion hfl
    | none => cases img with
      | some v => exact Option.noConfusion himg
      | none => cases txt with
        | none => exact Option.noConfusion htxt
        | some t =>
          obtain rfl : t = s := Option.some.inj htxt
          simp [paste, hs]

/-- Claim C1 witness: a successful file-list query runs exactly the
file-list handler. -/
theorem C1_dispatch_priority_witness :
    paste ⟨some ["a.txt"], none, none⟩ "d" (fun _ => "T") (fun _ => true) =
      ⟨[Query.fileList], [Query.fileList],
        (handle_file_list ["a.txt"] "d" (fun _ => "T")
          (fun _ => true) 0).written,
        (handle_file_list ["a.txt"] "d" (fun _ => "T")
          (fun _ => true) 0).output,
        (handle_file_list ["a.txt"] "d" (fun _ => "T")
          (fun _ => true) 0).dirCreates,
        (handle_file_list ["a.txt"] "d" (fun _ => "T")
          (fun _ => true) 0).err⟩ :=
  (C1_dispatch_priority ⟨some ["a.txt"], none, none⟩ "d" (fun _ => "T")
    (fun _ => true)).2.1 ["a.txt"] rfl

/-- Claim C2 counterexample: with all three queries failing, paste does not
exit successfully: the text-query failure propagates as an error. -/
theorem C2_counterexample :
    (paste ⟨none, none, none⟩ "d" (fun _ => "T") (fun _ => true)).err ≠
      none ∧
    (paste ⟨none, none, none⟩ "d" (fun _ => "T") (fun _ => true)).err =
      some PError.textQueryFailed := by
  exact ⟨fun h => Option.noConfusion h, rfl⟩

/-- Claim C2 (amended): if the file-list, image and text queries all fail,
paste exits with the propagated text-query error (a non-zero exit), having
produced no output and written no file. -/
theorem C2_all_queries_fail (clip : Clip) (dest : String)
    (ts : Nat → String) (copyOk : String → Bool)
    (h1 : clip.file_list = none) (h2 : clip.image = none)
    (h3 : clip.text = none) :
    paste clip dest ts copyOk =
      ⟨[Query.fileList, Query.image, Query.text], [], [], [], 0,
        some PError.textQueryFailed⟩ := by
  obtain ⟨fl, img, txt⟩ := clip
  cases fl with
  | some v => exact Option.noConfusion h1
  | none => cases img with
    | some v => exact Option.noConfusion h2
    | none => cases txt with
      | some v => exact Option.noConfusion h3
      | none => rfl

/-- Claim C2 (amended) witness. -/
theorem C2_all_queries_fail_witness :
    paste ⟨none, none, none⟩ "d" (fun _ => "T") (fun _ => true) =
      ⟨[Query.fileList, Query.image, Query.text], [], [], [], 0,
        some PError.textQueryFailed⟩ :=
  C2_all_queries_fail ⟨none, none, none⟩ "d" (fun _ => "T") (fun _ => true)
    rfl rfl rfl

/-- Claim C7: when the earlier queries fail and the clipboard text is empty
or whitespace-only, paste exits successfully with no output and no
writes. -/
theorem C7_whitespace_text (clip : Clip) (dest : String) (ts : Nat → String)
    (copyOk : String → Bool) (s : String) (h1 : clip.file_list = none)
    (h2 : clip.image = none) (h3 : clip.text = some s)
    (h4 : rustTrim s = "") :
    paste clip dest ts copyOk =
      ⟨[Query.fileList, Query.image, Query.text], [], [], [], 0, none⟩ := by
  obtain ⟨fl, img, txt⟩ := clip
  cases fl with
  | some v => exact Option.noConfusion h1
  | none => cases img with
    | some v => exact Option.noConfusion h2
    | none => cases txt with
      | none => exact Option.noConfusion h3
      | some t =>
        obtain rfl : t = s := Option.some.inj h3
        simp [paste, h4]

/-- Claim C7 witness: a clipboard holding a single space exits successfully
with no output. -/
theorem C7_whitespace_text_witness :
    paste ⟨none, none, some " "⟩ "d" (fun _ => "T") (fun _ => true) =
      ⟨[Query.fileList, Query.image, Query.text], [], [], [], 0, none⟩ :=
  C7_whitespace_text ⟨none, none, some " "⟩ "d" (fun _ => "T")
    (fun _ => true) " " rfl rfl rfl (by decide)

end Paster
